import Mathlib

/-!
Shallow embedding of `src/lib/study-storage.ts` (block-master-app).

The TypeScript module is a class `StudyStorageManager` whose only mutable
state is the private `colorAssignments : Map<string, string>`.  We embed
that state as an explicit association list (`ColorTable`) threaded through
the functions that touch it, and every method as a pure Lean function.

JavaScript `Date` values are embedded as `Option Int`: `some t` is a valid
instant (milliseconds since the epoch, the result of `getTime()`), `none`
is an Invalid Date (`NaN` time value).  Every relational comparison
against `NaN` is false in JavaScript, which the orderings `dlt`, `dle`,
`dge` below reproduce.  Date parsing (`new Date(string)`) is taken as a
parameter `parse : String → Option Int`, and locale time formatting
(`toLocaleTimeString`) as a parameter `fmt : Option Int → String`, since
both are host-environment primitives the module merely calls.
-/

/-- The priority union type of the `StudyBlock` interface. -/
inductive Priority where
  | normal
  | high
deriving DecidableEq, Repr

/-- The `StudyBlock` interface.  `start`/`end` stay strings exactly as in
the source (ISO datetime strings, parsed on use); `end` is spelled `end_`
because `end` is a Lean keyword. -/
structure StudyBlock where
  id : String
  subject : String
  description : Option String
  start : String
  end_ : String
  priority : Priority
  color : String
  createdAt : String
  updatedAt : String
deriving DecidableEq, Repr

/-- The `ConflictError` interface. -/
structure ConflictError where
  message : String
  conflictingBlock : StudyBlock
deriving DecidableEq, Repr

/-- JavaScript `<` on `Date` time values: false whenever either side is
`NaN` (Invalid Date). -/
def dlt : Option Int → Option Int → Bool
  | some a, some b => decide (a < b)
  | _, _ => false

/-- JavaScript `<=` on `Date` time values: false whenever either side is
`NaN`. -/
def dle : Option Int → Option Int → Bool
  | some a, some b => decide (a ≤ b)
  | _, _ => false

/-- JavaScript `>=` on `Date` time values: false whenever either side is
`NaN`. -/
def dge : Option Int → Option Int → Bool
  | some a, some b => decide (a ≥ b)
  | _, _ => false

/-- Embedding of `validateBlock(block, existingBlocks, excludeId?)`: the range check
(`end <= start`) first, then `existingBlocks.find(...)` scanning in list
order, skipping the block whose `id` equals `excludeId` and testing
`start < existingEnd && end > existingStart`. -/
def validateBlock (parse : String → Option Int) (fmt : Option Int → String)
    (block : StudyBlock) (existingBlocks : List StudyBlock)
    (excludeId : Option String) : Option ConflictError :=
  let start := parse block.start
  let end_ := parse block.end_
  if dle end_ start then
    some { message := "End time must be after start time"
           conflictingBlock := block }
  else
    match existingBlocks.find? (fun existing =>
        if excludeId == some existing.id then false
        else dlt start (parse existing.end_) && dlt (parse existing.start) end_) with
    | some conflictingBlock =>
        some { message := "This block overlaps with your "
                 ++ conflictingBlock.subject ++ " session from "
                 ++ fmt (parse conflictingBlock.start) ++ " to "
                 ++ fmt (parse conflictingBlock.end_)
               conflictingBlock := conflictingBlock }
    | none => none

/-- The overlap predicate used by `validateBlock`'s `find` callback, named
so theorems can speak about "the first block in the list's given order"
satisfying it. -/
def overlapPred (parse : String → Option Int) (block : StudyBlock)
    (excludeId : Option String) (existing : StudyBlock) : Bool :=
  if excludeId == some existing.id then false
  else dlt (parse block.start) (parse existing.end_)
    && dlt (parse existing.start) (parse block.end_)

/-- The `colorAssignments : Map<string, string>` field, embedded as an
association list in insertion order (the iteration order of a JS `Map`). -/
abbrev ColorTable := List (String × String)

/-- Model of `Map.get(key)` (`undefined` becomes `none`); also the model of
`Map.has` via `isSome`.  First matching key wins; keys are unique by
construction since insertion goes through `tableSet`. -/
def tableLookup : ColorTable → String → Option String
  | [], _ => none
  | (k, v) :: rest, key => if k == key then some v else tableLookup rest key

/-- Model of `Map.set(key, value)`: overwrite in place when the key exists
(keeping its insertion position), append otherwise. -/
def tableSet : ColorTable → String → String → ColorTable
  | [], k, v => [(k, v)]
  | (k', v') :: rest, k, v =>
      if k' == k then (k, v) :: rest else (k', v') :: tableSet rest k v

/-- The fixed palette `SUBJECT_COLORS`, in source order. -/
def SUBJECT_COLORS : List String :=
  ["subject-blue", "subject-green", "subject-purple", "subject-orange",
   "subject-pink", "subject-teal", "subject-indigo", "subject-cyan",
   "subject-red", "subject-yellow"]

/-- The whitespace characters stripped by `String.prototype.trim`
(restricted to the ASCII ones that can occur in form input). -/
def isWsChar (c : Char) : Bool :=
  c == ' ' || c == '\t' || c == '\n' || c == '\r'

/-- Model of `s.toLowerCase()`: lowercase each character. -/
def jsToLowerCase (s : String) : String :=
  String.mk (s.data.map Char.toLower)

/-- Model of `s.trim()`: strip whitespace from both ends. -/
def jsTrim (s : String) : String :=
  String.mk (((s.data.dropWhile isWsChar).reverse.dropWhile isWsChar).reverse)

/-- The normalization `subject.toLowerCase().trim()` used for color
grouping. -/
def normalizeSubject (subject : String) : String :=
  jsTrim (jsToLowerCase subject)

/-- Embedding of `getSubjectColor(subject)`: look the normalized subject up in the
color table; otherwise assign the first palette color not currently used
as a value of the table, with `SUBJECT_COLORS[0]` as the
all-colors-in-use fallback (`|| SUBJECT_COLORS[0]`).  Returns the color
together with the updated table (the method mutates `colorAssignments`). -/
def getSubjectColor (t : ColorTable) (subject : String) : String × ColorTable :=
  let normalizedSubject := normalizeSubject subject
  match tableLookup t normalizedSubject with
  | some c => (c, t)
  | none =>
      let usedColors := t.map Prod.snd
      let availableColor :=
        (SUBJECT_COLORS.find? (fun color => !(usedColors.contains color))).getD
          (SUBJECT_COLORS.getD 0 "")
      (availableColor, tableSet t normalizedSubject availableColor)

/-- Embedding of `rebuildColorAssignments(blocks)`: clear the table, then for each
block in order record its stored `color` under its normalized subject
unless that subject already has an entry (first occurrence wins). -/
def rebuildColorAssignments (blocks : List StudyBlock) : ColorTable :=
  blocks.foldl
    (fun t block =>
      let normalizedSubject := normalizeSubject block.subject
      if (tableLookup t normalizedSubject).isSome then t
      else tableSet t normalizedSubject block.color)
    []

/-- The argument of `createBlock`:
`Omit<StudyBlock, 'id' | 'color' | 'createdAt' | 'updatedAt'>`. -/
structure CreateData where
  subject : String
  description : Option String
  start : String
  end_ : String
  priority : Priority
deriving DecidableEq, Repr

/-- Embedding of `createBlock(data)`.  The current instant (`new Date().toISOString()`)
and the generated identifier (`uuidv4()`) are host-environment effects,
taken as the parameters `now` and `newId`; the color comes from
`getSubjectColor`, whose table update is returned alongside the block. -/
def createBlock (t : ColorTable) (data : CreateData) (now : String)
    (newId : String) : StudyBlock × ColorTable :=
  let p := getSubjectColor t data.subject
  ({ id := newId
     subject := data.subject
     description := data.description
     start := data.start
     end_ := data.end_
     priority := data.priority
     color := p.1
     createdAt := now
     updatedAt := now }, p.2)

/-- Model of `Partial<StudyBlock>`: every field optional.  `description` is doubly
optional because the underlying field is itself optional.  `id` and
`updatedAt` are present in the type but always overridden by
`updateBlock` after the spread. -/
structure PartialStudyBlock where
  id : Option String := none
  subject : Option String := none
  description : Option (Option String) := none
  start : Option String := none
  end_ : Option String := none
  priority : Option Priority := none
  color : Option String := none
  createdAt : Option String := none
  updatedAt : Option String := none
deriving DecidableEq, Repr

/-- The spread `{...currentBlock, ...updates, id, updatedAt: now}` of
`updateBlock`: a field-wise merge taking each field from `updates` when
present, with `id` and `updatedAt` re-imposed afterwards (so the `id`
and `updatedAt` members of `updates` never survive). -/
def mergedBlock (currentBlock : StudyBlock) (id : String) (now : String)
    (updates : PartialStudyBlock) : StudyBlock :=
  { id := id
    subject := updates.subject.getD currentBlock.subject
    description := updates.description.getD currentBlock.description
    start := updates.start.getD currentBlock.start
    end_ := updates.end_.getD currentBlock.end_
    priority := updates.priority.getD currentBlock.priority
    color := updates.color.getD currentBlock.color
    createdAt := updates.createdAt.getD currentBlock.createdAt
    updatedAt := now }

/-- Embedding of `updateBlock(blocks, id, updates)`.
`findIndex(b => b.id === id)` with a thrown
`Error('Study block not found')` on `-1` becomes `List.find?` with
`Except.error`; the spread result is `mergedBlock`; then
`if (updates.subject && updates.subject !== currentBlock.subject)` — a
truthiness test (the empty string is falsy) and a case-sensitive strict
comparison — re-resolves `color` through `getSubjectColor`, whose table
update is returned alongside the block.  The input list is never
mutated (the embedding is a pure function of it). -/
def updateBlock (t : ColorTable) (now : String) (blocks : List StudyBlock)
    (id : String) (updates : PartialStudyBlock) :
    Except String (StudyBlock × ColorTable) :=
  match blocks.find? (fun b => b.id == id) with
  | none => .error "Study block not found"
  | some currentBlock =>
      let updatedBlock : StudyBlock := mergedBlock currentBlock id now updates
      match updates.subject with
      | some s =>
          if s != "" && s != currentBlock.subject then
            let p := getSubjectColor t s
            .ok ({ updatedBlock with color := p.1 }, p.2)
          else
            .ok (updatedBlock, t)
      | none => .ok (updatedBlock, t)

/-- What `JSON.parse` did with the stored string, as far as `loadBlocks`
can observe it: it threw (`failure`), it produced an array (whose
elements the source uses as `StudyBlock`s without further validation), or
it produced some non-array value. -/
inductive ParseResult where
  | failure
  | arrayVal (blocks : List StudyBlock)
  | otherVal
deriving DecidableEq, Repr

/-- Embedding of `loadBlocks()`.  `localStorage.getItem` is the parameter `stored`
(`none` = key absent); `JSON.parse` is the parameter `parseJson`.  The
guard `if (!stored) return []` also fires on the falsy empty string and
returns before any table rebuild; a `JSON.parse` throw lands in the
`catch` (which logs and returns `[]`, table untouched); otherwise
`Array.isArray` selects the parsed array or `[]`, and
`rebuildColorAssignments` replaces the table.  Returns the block list
together with the table state after the call (the method reads and
writes `this.colorAssignments`, embedded as the parameter `t`). -/
def loadBlocks (t : ColorTable) (stored : Option String)
    (parseJson : String → ParseResult) : List StudyBlock × ColorTable :=
  match stored with
  | none => ([], t)
  | some s =>
      if s == "" then ([], t)
      else
        match parseJson s with
        | .failure => ([], t)
        | .arrayVal blocks => (blocks, rebuildColorAssignments blocks)
        | .otherVal => ([], rebuildColorAssignments [])

/-- The `stats` map of `getSubjectStats`: raw subject string to running
total, in insertion order.  The value is `Option ℚ` with `none` playing
JavaScript `NaN` (an invalid `end`/`start` makes
`duration / (1000*60*60)` `NaN`). -/
abbrev StatsMap := List (String × Option ℚ)

/-- Model of `stats.get(key)` (`undefined` becomes `none`). -/
def statsLookup : StatsMap → String → Option (Option ℚ)
  | [], _ => none
  | (k, v) :: rest, key => if k == key then some v else statsLookup rest key

/-- Model of `stats.set(key, value)` with JS `Map` semantics. -/
def statsSet : StatsMap → String → Option ℚ → StatsMap
  | [], k, v => [(k, v)]
  | (k', v') :: rest, k, v =>
      if k' == k then (k, v) :: rest else (k', v') :: statsSet rest k v

/-- The `forEach` body of `getSubjectStats(blocks, startDate, endDate)`: for each block whose
parsed `start` satisfies `blockStart >= startDate && blockStart <= endDate`
(false under any `NaN`), add `(end - start) / (1000*60*60)` to the entry
keyed by the raw `subject`.  `stats.get(block.subject) || 0` collapses a
missing entry — and, `NaN` being falsy, a `NaN` entry — to `0`. -/
def statsStep (parse : String → Option Int) (startDate endDate : Option Int)
    (stats : StatsMap) (block : StudyBlock) : StatsMap :=
  let blockStart := parse block.start
  if dge blockStart startDate && dle blockStart endDate then
    let duration : Option ℚ :=
      match parse block.end_, blockStart with
      | some e, some s => some ((e : ℚ) - (s : ℚ))
      | _, _ => none
    let hours := duration.map (fun d => d / (1000 * 60 * 60))
    let current : ℚ :=
      match statsLookup stats block.subject with
      | some (some x) => if x == 0 then 0 else x
      | _ => 0
    statsSet stats block.subject (hours.map (fun h => current + h))
  else stats

def getSubjectStats (parse : String → Option Int) (blocks : List StudyBlock)
    (startDate endDate : Option Int) : StatsMap :=
  blocks.foldl (statsStep parse startDate endDate) []

/-!
Concrete test fixtures.  Date parsing is instantiated for witnesses by a
finite lookup table (an arbitrary but concrete stand-in for the host
date parser), and formatting by a constant function.
-/

/-- A date parser given by a finite table; unlisted strings are Invalid
Dates. -/
def parseFromTable (table : List (String × Int)) : String → Option Int :=
  fun s => (table.find? (fun p => p.1 == s)).map Prod.snd

/-- The concrete parser used in witnesses. -/
def testParse : String → Option Int :=
  parseFromTable
    [("0", 0), ("30", 30), ("60", 60), ("90", 90), ("120", 120),
     ("5400000", 5400000)]

/-- The concrete time formatter used in witnesses. -/
def testFmt : Option Int → String := fun _ => "9:00 AM"

/-- Fixture: a Math block on the interval `[0, 60)`. -/
def blockMath : StudyBlock :=
  { id := "a", subject := "Math", description := none, start := "0",
    end_ := "60", priority := .normal, color := "subject-red",
    createdAt := "c0", updatedAt := "u0" }

/-- Fixture: a Phys block on the interval `[60, 120)`, touching
`blockMath`. -/
def blockPhys : StudyBlock :=
  { id := "b", subject := "Phys", description := none, start := "60",
    end_ := "120", priority := .normal, color := "subject-green",
    createdAt := "c0", updatedAt := "u0" }

/-- Fixture: a Chem block on the interval `[30, 90)`, overlapping both
`blockMath` and `blockPhys`. -/
def blockChem : StudyBlock :=
  { id := "c", subject := "Chem", description := none, start := "30",
    end_ := "90", priority := .normal, color := "subject-teal",
    createdAt := "c0", updatedAt := "u0" }

/-- Fixture: a Physics block lasting 5400000 ms = 1.5 hours. -/
def blockPhysics : StudyBlock :=
  { id := "p", subject := "Physics", description := none, start := "0",
    end_ := "5400000", priority := .normal, color := "subject-blue",
    createdAt := "c0", updatedAt := "u0" }

/-- Fixture: creation data with subject `"Math"`. -/
def dataMath : CreateData :=
  { subject := "Math", description := none, start := "0", end_ := "60",
    priority := .normal }

/-- Fixture: creation data with subject `"math "`, a case/whitespace
variant of `"Math"`. -/
def dataMathVariant : CreateData :=
  { subject := "math ", description := none, start := "60", end_ := "120",
    priority := .normal }

/-!
Helper lemmas about the date orderings and the association-list maps.
-/

theorem dlt_none_left (y : Option Int) : dlt none y = false := by
  cases y <;> rfl

theorem dlt_none_right (x : Option Int) : dlt x none = false := by
  cases x <;> rfl

theorem dle_none_left (y : Option Int) : dle none y = false := by
  cases y <;> rfl

theorem dle_none_right (x : Option Int) : dle x none = false := by
  cases x <;> rfl

theorem dlt_self (x : Option Int) : dlt x x = false := by
  cases x with
  | none => rfl
  | some a => simp [dlt]

theorem tableLookup_tableSet (t : ColorTable) (k v key) :
    tableLookup (tableSet t k v) key
      = if k == key then some v else tableLookup t key := by
  induction t with
  | nil => simp [tableSet, tableLookup]
  | cons hd tl ih =>
      obtain ⟨k', v'⟩ := hd
      by_cases hk : k' = k
      · subst hk
        simp only [tableSet, beq_self_eq_true, if_true, tableLookup]
        by_cases hkey : k' = key <;> simp [hkey]
      · simp only [tableSet, tableLookup, beq_iff_eq, if_neg hk, ih]
        by_cases h1 : k' = key
        · by_cases h2 : k = key
          · exact absurd (h1.trans h2.symm) hk
          · simp [h1, h2]
        · by_cases h2 : k = key <;> simp [h1, h2]

/-- Unfolding equation of `updateBlock` when the id is present: the
result is the merged block, with `color` (and the table) re-resolved
through `getSubjectColor` exactly when `updates` carries a non-empty
subject that differs, by case-sensitive string comparison, from the
current one. -/
theorem updateBlock_eq_ok (t : ColorTable) (now : String)
    (blocks : List StudyBlock) (id : String) (updates : PartialStudyBlock)
    (cur : StudyBlock) (hf : blocks.find? (fun b => b.id == id) = some cur) :
    updateBlock t now blocks id updates =
      .ok (match updates.subject with
        | some s =>
            if s != "" && s != cur.subject then
              ({ mergedBlock cur id now updates with
                   color := (getSubjectColor t s).1 },
               (getSubjectColor t s).2)
            else (mergedBlock cur id now updates, t)
        | none => (mergedBlock cur id now updates, t)) := by
  unfold updateBlock
  rw [hf]
  cases updates.subject with
  | none => rfl
  | some s =>
      dsimp only
      by_cases hc : (s != "" && s != cur.subject) = true
      · simp only [hc, if_true]
      · simp only [hc, if_false, Bool.false_eq_true]

/-- Unfolding equation of `updateBlock` when no block carries the id. -/
theorem updateBlock_eq_error (t : ColorTable) (now : String)
    (blocks : List StudyBlock) (id : String) (updates : PartialStudyBlock)
    (hf : blocks.find? (fun b => b.id == id) = none) :
    updateBlock t now blocks id updates = .error "Study block not found" := by
  unfold updateBlock
  rw [hf]

/-- When the table already has the normalized subject, `getSubjectColor`
returns the stored color and leaves the table unchanged. -/
theorem getSubjectColor_hit (t : ColorTable) (s c : String)
    (hl : tableLookup t (normalizeSubject s) = some c) :
    getSubjectColor t s = (c, t) := by
  unfold getSubjectColor
  dsimp only
  rw [hl]

/-- When the table does not have the normalized subject,
`getSubjectColor` assigns the first palette color not among the table
values (falling back to the head of the palette) and records it. -/
theorem getSubjectColor_miss (t : ColorTable) (s : String)
    (hl : tableLookup t (normalizeSubject s) = none) :
    getSubjectColor t s =
      ((SUBJECT_COLORS.find? (fun color => !((t.map Prod.snd).contains color))).getD
          (SUBJECT_COLORS.getD 0 ""),
       tableSet t (normalizeSubject s)
         ((SUBJECT_COLORS.find? (fun color => !((t.map Prod.snd).contains color))).getD
           (SUBJECT_COLORS.getD 0 ""))) := by
  unfold getSubjectColor
  dsimp only
  rw [hl]

/-- After `getSubjectColor`, the table maps the normalized subject to the
returned color. -/
theorem getSubjectColor_lookup (t : ColorTable) (s : String) :
    tableLookup (getSubjectColor t s).2 (normalizeSubject s)
      = some (getSubjectColor t s).1 := by
  cases hl : tableLookup t (normalizeSubject s) with
  | some c => rw [getSubjectColor_hit t s c hl]; exact hl
  | none => rw [getSubjectColor_miss t s hl, tableLookup_tableSet]; simp

/-- The function `getSubjectColor` reads its subject argument only through
`normalizeSubject`. -/
theorem getSubjectColor_congr (t : ColorTable) (s1 s2 : String)
    (h : normalizeSubject s1 = normalizeSubject s2) :
    getSubjectColor t s1 = getSubjectColor t s2 := by
  unfold getSubjectColor
  rw [h]

/-- Unfolding equation of `validateBlock` once the range check has
passed: the result is determined by the first block satisfying
`overlapPred`, scanning `existingBlocks` in order. -/
theorem validateBlock_eq_scan (parse : String → Option Int)
    (fmt : Option Int → String) (block : StudyBlock)
    (existingBlocks : List StudyBlock) (excludeId : Option String)
    (h : dle (parse block.end_) (parse block.start) = false) :
    validateBlock parse fmt block existingBlocks excludeId =
      match existingBlocks.find? (overlapPred parse block excludeId) with
      | some c =>
          some { message := "This block overlaps with your " ++ c.subject
                   ++ " session from " ++ fmt (parse c.start) ++ " to "
                   ++ fmt (parse c.end_)
                 conflictingBlock := c }
      | none => none := by
  unfold validateBlock overlapPred
  dsimp only
  rw [h]
  simp only [Bool.false_eq_true, if_false]

/-- C4: for every candidate whose parsed `end` is not strictly after its
parsed `start` (JS `end <= start`, true only on two valid instants), and
for every list of existing blocks and every `excludeId`, `validateBlock`
returns the range `ConflictError` — message
"End time must be after start time", referencing the candidate itself —
without consulting the existing blocks at all (the quantification over
an arbitrary `existingBlocks` shows the range check is decided first). -/
theorem validateBlock_range_check (parse : String → Option Int)
    (fmt : Option Int → String) (block : StudyBlock)
    (existingBlocks : List StudyBlock) (excludeId : Option String)
    (h : dle (parse block.end_) (parse block.start) = true) :
    validateBlock parse fmt block existingBlocks excludeId =
      some { message := "End time must be after start time"
             conflictingBlock := block } := by
  unfold validateBlock
  dsimp only
  rw [h]
  simp only [if_true]

/-- Witness for C4: a candidate running from instant 60 back to instant
0, validated against a non-empty list, yields the range error citing the
candidate. -/
theorem validateBlock_range_check_witness :
    dle (testParse "0") (testParse "60") = true
    ∧ validateBlock testParse testFmt
        { blockMath with start := "60", end_ := "0" } [blockPhys] none =
        some { message := "End time must be after start time"
               conflictingBlock := { blockMath with start := "60", end_ := "0" } } :=
  ⟨by decide,
   validateBlock_range_check testParse testFmt
     { blockMath with start := "60", end_ := "0" } [blockPhys] none (by decide)⟩

/-- C9: a candidate whose `start` or `end` does not parse (Invalid Date)
is never reported: the range check fails (every JS comparison against
`NaN` is false) and no existing block can satisfy the overlap test, so
`validateBlock` returns `none` for every list of existing blocks. -/
theorem validateBlock_invalid_dates (parse : String → Option Int)
    (fmt : Option Int → String) (block : StudyBlock)
    (existingBlocks : List StudyBlock) (excludeId : Option String)
    (h : parse block.start = none ∨ parse block.end_ = none) :
    validateBlock parse fmt block existingBlocks excludeId = none := by
  have hle : dle (parse block.end_) (parse block.start) = false := by
    rcases h with h | h
    · rw [h]; exact dle_none_right _
    · rw [h]; exact dle_none_left _
  rw [validateBlock_eq_scan parse fmt block existingBlocks excludeId hle]
  have hfind : existingBlocks.find? (overlapPred parse block excludeId) = none := by
    rw [List.find?_eq_none]
    intro ex _
    rcases h with h | h
    · simp [overlapPred, h, dlt_none_left]
    · simp [overlapPred, h, dlt_none_right]
  rw [hfind]

/-- Witness for C9: an unparsable `start` string makes validation accept
even against an overlapping block. -/
theorem validateBlock_invalid_dates_witness :
    (testParse "xx" = none ∨ testParse "60" = none)
    ∧ validateBlock testParse testFmt { blockMath with start := "xx" }
        [blockChem] none = none :=
  ⟨Or.inl (by decide),
   validateBlock_invalid_dates testParse testFmt { blockMath with start := "xx" }
     [blockChem] none (Or.inl (by decide))⟩

/-- C1: for a candidate whose parsed `end` is strictly after its parsed
`start`, `validateBlock` returns a `ConflictError` whose
`conflictingBlock` is exactly the first block of `existingBlocks`, in
the given order, whose id differs from `excludeId` and which overlaps
the candidate under the half-open test
`start < existing.end && end > existing.start` (`overlapPred`), and
returns `none` when no such block exists; a block that merely touches
(its parsed `start` equal to the candidate's parsed `end`) never
satisfies the predicate. -/
theorem validateBlock_first_overlap (parse : String → Option Int)
    (fmt : Option Int → String) (block : StudyBlock)
    (existingBlocks : List StudyBlock) (excludeId : Option String)
    (h : dlt (parse block.start) (parse block.end_) = true) :
    (validateBlock parse fmt block existingBlocks excludeId).map
        (fun e => e.conflictingBlock)
      = existingBlocks.find? (overlapPred parse block excludeId)
    ∧ ∀ ex ∈ existingBlocks, parse ex.start = parse block.end_ →
        overlapPred parse block excludeId ex = false := by
  have hle : dle (parse block.end_) (parse block.start) = false := by
    rcases hs : parse block.start with _ | a
    · rw [hs] at h
      simp [dlt] at h
    · rcases he : parse block.end_ with _ | b
      · rw [he] at h
        simp [dlt] at h
      · rw [hs, he] at h
        simp [dlt] at h
        simp [dle]
        omega
  constructor
  · rw [validateBlock_eq_scan parse fmt block existingBlocks excludeId hle]
    cases hf : existingBlocks.find? (overlapPred parse block excludeId) <;> simp
  · intro ex _ hex
    unfold overlapPred
    rw [hex, dlt_self]
    simp

/-- Witness for C1: the Chem candidate `[30, 90)` against
`[Math [0, 60), Phys [60, 120)]` conflicts, and with the first block of
the list, Math. -/
theorem validateBlock_first_overlap_witness :
    dlt (testParse blockChem.start) (testParse blockChem.end_) = true
    ∧ ((validateBlock testParse testFmt blockChem [blockMath, blockPhys] none).map
          (fun e => e.conflictingBlock)
        = [blockMath, blockPhys].find? (overlapPred testParse blockChem none)
      ∧ ∀ ex ∈ [blockMath, blockPhys],
          testParse ex.start = testParse blockChem.end_ →
          overlapPred testParse blockChem none ex = false)
    ∧ [blockMath, blockPhys].find? (overlapPred testParse blockChem none)
        = some blockMath :=
  ⟨by decide,
   validateBlock_first_overlap testParse testFmt blockChem [blockMath, blockPhys]
     none (by decide),
   by decide⟩

/-- Counterexample to C2 as stated: when the partial fields change the
subject, the returned block is not the plain merge of the existing
fields with the partial fields — its `color` is re-resolved through the
Color Assignment Table (here, with an empty table, to the first palette
color `subject-blue`) instead of keeping the merge's `subject-red`. -/
theorem updateBlock_merge_counterexample :
    (match updateBlock [] "t1" [blockMath] "a" { subject := some "Physics" } with
      | .ok (r, _) => some r.color
      | .error _ => none) = some "subject-blue"
    ∧ (mergedBlock blockMath "a" "t1" { subject := some "Physics" }).color
        = "subject-red"
    ∧ ("subject-blue" : String) ≠ "subject-red" := by decide

/-- C2 as amended: `updateBlock` fails with the not-found error exactly
when no block in the collection has the given id; otherwise it returns
the first such block merged field-wise with the partial fields
(`mergedBlock`), with `id` preserved — even against a conflicting id in
the partial fields — and `updatedAt` set to the current instant, except
that `color` is re-resolved via the Color Assignment Table when the
partial fields carry a non-empty subject that differs case-sensitively
from the current one.  The input collection is a pure argument and is
never mutated. -/
theorem updateBlock_characterization (t : ColorTable) (now : String)
    (blocks : List StudyBlock) (id : String) (updates : PartialStudyBlock) :
    ((∃ e, updateBlock t now blocks id updates = .error e)
        ↔ ∀ b ∈ blocks, ¬ b.id = id)
    ∧ ∀ cur, blocks.find? (fun b => b.id == id) = some cur →
        updateBlock t now blocks id updates =
          .ok (match updates.subject with
            | some s =>
                if s != "" && s != cur.subject then
                  ({ mergedBlock cur id now updates with
                       color := (getSubjectColor t s).1 },
                   (getSubjectColor t s).2)
                else (mergedBlock cur id now updates, t)
            | none => (mergedBlock cur id now updates, t)) := by
  constructor
  · constructor
    · rintro ⟨e, he⟩ b hb hid
      cases hf : blocks.find? (fun b => b.id == id) with
      | none =>
          rw [List.find?_eq_none] at hf
          exact hf b hb (by simp [hid])
      | some cur =>
          rw [updateBlock_eq_ok t now blocks id updates cur hf] at he
          exact Except.noConfusion he
    · intro hall
      have hf : blocks.find? (fun b => b.id == id) = none := by
        rw [List.find?_eq_none]
        intro b hb
        simpa using hall b hb
      exact ⟨_, updateBlock_eq_error t now blocks id updates hf⟩
  · intro cur hf
    exact updateBlock_eq_ok t now blocks id updates cur hf

/-- Witness for C2 as amended: updating the Math block's `start` (no
subject change) succeeds and returns exactly the merge, with `id`
preserved and `updatedAt` refreshed. -/
theorem updateBlock_characterization_witness :
    ([blockMath].find? (fun b => b.id == "a") = some blockMath)
    ∧ updateBlock [] "t1" [blockMath] "a" { start := some "30" } =
        .ok (mergedBlock blockMath "a" "t1" { start := some "30" }, [])
    ∧ mergedBlock blockMath "a" "t1" { start := some "30" } =
        { blockMath with start := "30", updatedAt := "t1" } := by
  refine ⟨by decide, ?_, by decide⟩
  exact (updateBlock_characterization [] "t1" [blockMath] "a"
    { start := some "30" }).2 blockMath (by decide)

/-- Counterexample to C5 as stated: the `Partial<StudyBlock>` spread lets
a supplied `createdAt` override the existing one — the source re-imposes
`id` and `updatedAt` after the spread but not `createdAt`. -/
theorem updateBlock_createdAt_counterexample :
    (match updateBlock [] "t1" [blockMath] "a" { createdAt := some "c9" } with
      | .ok (r, _) => some r.createdAt
      | .error _ => none) = some "c9"
    ∧ blockMath.createdAt = "c0"
    ∧ ("c9" : String) ≠ "c0" := by decide

/-- C5 as amended: for an existing block, `updateBlock` preserves
`createdAt` whenever the partial fields do not supply a `createdAt` (a
supplied one overrides it through the spread), and every field not named
in the partial fields is returned unchanged, apart from `updatedAt`,
which becomes the current instant, and `color`, which additionally
changes only when a non-empty, case-sensitively different subject is
supplied. -/
theorem updateBlock_frame (t : ColorTable) (now : String)
    (blocks : List StudyBlock) (id : String) (updates : PartialStudyBlock)
    (cur : StudyBlock) (hf : blocks.find? (fun b => b.id == id) = some cur) :
    ∃ r t', updateBlock t now blocks id updates = .ok (r, t')
      ∧ (updates.createdAt = none → r.createdAt = cur.createdAt)
      ∧ (updates.subject = none → r.subject = cur.subject)
      ∧ (updates.description = none → r.description = cur.description)
      ∧ (updates.start = none → r.start = cur.start)
      ∧ (updates.end_ = none → r.end_ = cur.end_)
      ∧ (updates.priority = none → r.priority = cur.priority)
      ∧ (updates.color = none →
          (updates.subject = none ∨ updates.subject = some cur.subject
            ∨ updates.subject = some "") → r.color = cur.color)
      ∧ r.updatedAt = now ∧ r.id = id := by
  rw [updateBlock_eq_ok t now blocks id updates cur hf]
  cases hs : updates.subject with
  | none =>
      refine ⟨_, _, rfl, ?_, ?_, ?_, ?_, ?_, ?_, ?_, rfl, rfl⟩
      · intro h; simp [mergedBlock, h]
      · intro h; simp [mergedBlock, hs]
      · intro h; simp [mergedBlock, h]
      · intro h; simp [mergedBlock, h]
      · intro h; simp [mergedBlock, h]
      · intro h; simp [mergedBlock, h]
      · intro h hd; simp [mergedBlock, h]
  | some s =>
      dsimp only
      by_cases hcond : (s != "" && s != cur.subject) = true
      · rw [if_pos hcond]
        refine ⟨_, _, rfl, ?_, ?_, ?_, ?_, ?_, ?_, ?_, rfl, rfl⟩
        · intro h; simp [mergedBlock, h]
        · intro h; exact Option.noConfusion h
        · intro h; simp [mergedBlock, h]
        · intro h; simp [mergedBlock, h]
        · intro h; simp [mergedBlock, h]
        · intro h; simp [mergedBlock, h]
        · intro h hd
          rcases hd with hd | hd | hd
          · exact Option.noConfusion hd
          · have he : s = cur.subject := by simpa using hd
            simp [he] at hcond
          · have he : s = "" := by simpa using hd
            simp [he] at hcond
      · rw [if_neg hcond]
        refine ⟨_, _, rfl, ?_, ?_, ?_, ?_, ?_, ?_, ?_, rfl, rfl⟩
        · intro h; simp [mergedBlock, h]
        · intro h; exact Option.noConfusion h
        · intro h; simp [mergedBlock, h]
        · intro h; simp [mergedBlock, h]
        · intro h; simp [mergedBlock, h]
        · intro h; simp [mergedBlock, h]
        · intro h hd; simp [mergedBlock, h]

/-- Fixture: partial fields updating only `start`. -/
def updStart30 : PartialStudyBlock := { start := some "30" }

/-- Witness for C5 as amended: updating only `start` of the Math block
keeps every other stored field, refreshes `updatedAt` and keeps the id. -/
theorem updateBlock_frame_witness :
    ([blockMath].find? (fun b => b.id == "a") = some blockMath)
    ∧ ∃ r t', updateBlock [] "t1" [blockMath] "a" updStart30 = .ok (r, t')
        ∧ (updStart30.createdAt = none → r.createdAt = blockMath.createdAt)
        ∧ (updStart30.subject = none → r.subject = blockMath.subject)
        ∧ (updStart30.description = none → r.description = blockMath.description)
        ∧ (updStart30.start = none → r.start = blockMath.start)
        ∧ (updStart30.end_ = none → r.end_ = blockMath.end_)
        ∧ (updStart30.priority = none → r.priority = blockMath.priority)
        ∧ (updStart30.color = none →
            (updStart30.subject = none ∨ updStart30.subject = some blockMath.subject
              ∨ updStart30.subject = some "") → r.color = blockMath.color)
        ∧ r.updatedAt = "t1" ∧ r.id = "a" :=
  ⟨by decide,
   updateBlock_frame [] "t1" [blockMath] "a" updStart30 blockMath (by decide)⟩

/-- Counterexample to C6 as stated: `"MATH"` is a pure case variant of
the current subject `"Math"` (equal after lowercasing and trimming), yet
`updateBlock` — whose comparison `updates.subject !== currentBlock.subject`
is case-sensitive — does re-resolve the color, and with an empty Color
Assignment Table the block does not keep its `subject-red`. -/
theorem updateBlock_color_counterexample :
    normalizeSubject "MATH" = normalizeSubject blockMath.subject
    ∧ (match updateBlock [] "t1" [blockMath] "a" { subject := some "MATH" } with
        | .ok (r, _) => some r.color
        | .error _ => none) = some "subject-blue"
    ∧ blockMath.color = "subject-red"
    ∧ ("subject-blue" : String) ≠ "subject-red" := by decide

/-- C6 as amended: `color` is re-resolved via the Color Assignment Table
exactly when the partial fields carry a non-empty subject that differs
by case-sensitive string comparison from the current subject — so a
case/whitespace variant does trigger re-resolution; the re-resolution
returns the table's stored color for the normalized subject when
present, hence the block keeps its color whenever the table already maps
the normalized subject to the current color (as it does after loading
the collection the block came from); and with the subject absent, empty
or strictly equal (and no color supplied) the color is kept. -/
theorem updateBlock_color_resolution (t : ColorTable) (now : String)
    (blocks : List StudyBlock) (id : String) (updates : PartialStudyBlock)
    (cur : StudyBlock) (hf : blocks.find? (fun b => b.id == id) = some cur) :
    ∃ r t', updateBlock t now blocks id updates = .ok (r, t')
      ∧ (∀ s, updates.subject = some s → s ≠ "" → s ≠ cur.subject →
          r.color = (getSubjectColor t s).1
          ∧ (tableLookup t (normalizeSubject s) = some cur.color →
              r.color = cur.color))
      ∧ ((updates.subject = none ∨ updates.subject = some cur.subject
            ∨ updates.subject = some "") → updates.color = none →
          r.color = cur.color) := by
  rw [updateBlock_eq_ok t now blocks id updates cur hf]
  cases hs : updates.subject with
  | none =>
      refine ⟨_, _, rfl, ?_, ?_⟩
      · intro s h
        exact Option.noConfusion h
      · intro _ hc
        simp [mergedBlock, hc]
  | some s0 =>
      dsimp only
      by_cases hcond : (s0 != "" && s0 != cur.subject) = true
      · rw [if_pos hcond]
        refine ⟨_, _, rfl, ?_, ?_⟩
        · intro s h hne hnecur
          obtain rfl : s0 = s := by simpa using h
          constructor
          · simp
          · intro hl
            have hhit := getSubjectColor_hit t s0 cur.color hl
            simp [hhit]
        · intro hd _
          rcases hd with hd | hd | hd
          · exact Option.noConfusion hd
          · have he : s0 = cur.subject := by simpa using hd
            simp [he] at hcond
          · have he : s0 = "" := by simpa using hd
            simp [he] at hcond
      · rw [if_neg hcond]
        refine ⟨_, _, rfl, ?_, ?_⟩
        · intro s h hne hnecur
          obtain rfl : s0 = s := by simpa using h
          exfalso
          apply hcond
          simp [hne, hnecur]
        · intro _ hc
          simp [mergedBlock, hc]

/-- Fixture: partial fields updating the subject to the case variant
`"MATH"`. -/
def updSubjectMATH : PartialStudyBlock := { subject := some "MATH" }

/-- Witness for C6 as amended: updating the Math block's subject to
`"MATH"` over a table that maps `"math"` to the block's current color
re-resolves through the table and keeps `subject-red`. -/
theorem updateBlock_color_resolution_witness :
    ([blockMath].find? (fun b => b.id == "a") = some blockMath)
    ∧ ∃ r t', updateBlock [("math", "subject-red")] "t1" [blockMath] "a"
          updSubjectMATH = .ok (r, t')
        ∧ (∀ s, updSubjectMATH.subject = some s → s ≠ "" →
            s ≠ blockMath.subject →
            r.color = (getSubjectColor [("math", "subject-red")] s).1
            ∧ (tableLookup [("math", "subject-red")] (normalizeSubject s)
                  = some blockMath.color → r.color = blockMath.color))
        ∧ ((updSubjectMATH.subject = none
              ∨ updSubjectMATH.subject = some blockMath.subject
              ∨ updSubjectMATH.subject = some "") →
            updSubjectMATH.color = none → r.color = blockMath.color) :=
  ⟨by decide,
   updateBlock_color_resolution [("math", "subject-red")] "t1" [blockMath] "a"
     updSubjectMATH blockMath (by decide)⟩

/-- C8: color assignment is invariant under case/whitespace variation of
the subject: two consecutive `createBlock` calls on the same store whose
subjects normalize equally yield blocks with the identical color token —
and `getSubjectColor` factors through `normalizeSubject` (equal
normalizations give equal results on any table). -/
theorem createBlock_color_invariance (t : ColorTable) (d1 d2 : CreateData)
    (now1 id1 now2 id2 : String)
    (h : normalizeSubject d1.subject = normalizeSubject d2.subject) :
    ((createBlock (createBlock t d1 now1 id1).2 d2 now2 id2).1).color
        = ((createBlock t d1 now1 id1).1).color
    ∧ getSubjectColor t d1.subject = getSubjectColor t d2.subject := by
  constructor
  · have hl : tableLookup (getSubjectColor t d1.subject).2
        (normalizeSubject d2.subject) = some (getSubjectColor t d1.subject).1 := by
      rw [← h]
      exact getSubjectColor_lookup t d1.subject
    have hhit := getSubjectColor_hit (getSubjectColor t d1.subject).2 d2.subject
      (getSubjectColor t d1.subject).1 hl
    calc ((createBlock (createBlock t d1 now1 id1).2 d2 now2 id2).1).color
        = (getSubjectColor (getSubjectColor t d1.subject).2 d2.subject).1 := rfl
      _ = ((getSubjectColor t d1.subject).1,
            (getSubjectColor t d1.subject).2).1 := by rw [hhit]
      _ = (getSubjectColor t d1.subject).1 := rfl
      _ = ((createBlock t d1 now1 id1).1).color := rfl
  · exact getSubjectColor_congr t d1.subject d2.subject h

/-- Witness for C8: creating `"Math"` then `"math "` on a fresh store
gives the same color to both blocks (concretely `subject-blue`). -/
theorem createBlock_color_invariance_witness :
    normalizeSubject dataMath.subject = normalizeSubject dataMathVariant.subject
    ∧ (((createBlock (createBlock [] dataMath "t1" "i1").2 dataMathVariant
            "t2" "i2").1).color
          = ((createBlock [] dataMath "t1" "i1").1).color
      ∧ getSubjectColor [] dataMath.subject
          = getSubjectColor [] dataMathVariant.subject)
    ∧ ((createBlock [] dataMath "t1" "i1").1).color = "subject-blue" :=
  ⟨by decide,
   createBlock_color_invariance [] dataMath dataMathVariant "t1" "i1" "t2" "i2"
     (by decide),
   by decide⟩

/-- C10: a stored value that parses to a non-array JSON value makes
`loadBlocks` return the empty list, and the Color Assignment Table is
rebuilt from the empty list, i.e. reset to empty. -/
theorem loadBlocks_nonarray (t : ColorTable) (s : String)
    (parseJson : String → ParseResult) (h1 : s ≠ "")
    (h2 : parseJson s = .otherVal) :
    loadBlocks t (some s) parseJson = ([], rebuildColorAssignments [])
    ∧ rebuildColorAssignments [] = [] := by
  constructor
  · unfold loadBlocks
    have hbe : (s == "") = false := by simpa using h1
    simp [hbe, h2]
  · rfl

/-- Fixture: a JSON parse that yields a non-array value. -/
def pjOther : String → ParseResult := fun _ => ParseResult.otherVal

/-- Witness for C10: loading the stored string `"notanarray"` over a
non-empty table returns no blocks and an emptied table. -/
theorem loadBlocks_nonarray_witness :
    (("notanarray" : String) ≠ "")
    ∧ pjOther "notanarray" = ParseResult.otherVal
    ∧ (loadBlocks [("math", "subject-red")] (some "notanarray") pjOther
        = ([], rebuildColorAssignments [])
      ∧ rebuildColorAssignments [] = []) :=
  ⟨by decide, rfl,
   loadBlocks_nonarray [("math", "subject-red")] "notanarray" pjOther
     (by decide) rfl⟩

/-- Lookup characterization of the `rebuildColorAssignments` fold from
an arbitrary starting table: existing keys are untouched, and a missing
key is filled by the first block whose normalized subject matches. -/
theorem rebuildColorAssignments_go (blocks : List StudyBlock) :
    ∀ (t : ColorTable) (key : String),
      tableLookup (blocks.foldl
          (fun t block =>
            let normalizedSubject := normalizeSubject block.subject
            if (tableLookup t normalizedSubject).isSome then t
            else tableSet t normalizedSubject block.color) t) key
        = if (tableLookup t key).isSome then tableLookup t key
          else (blocks.find? (fun b => normalizeSubject b.subject == key)).map
            (fun b => b.color) := by
  induction blocks with
  | nil =>
      intro t key
      cases h : tableLookup t key <;> simp [h]
  | cons b bs ih =>
      intro t key
      dsimp only [List.foldl]
      by_cases hb : (tableLookup t (normalizeSubject b.subject)).isSome
      · rw [if_pos hb, ih]
        by_cases hkey : normalizeSubject b.subject = key
        · rw [hkey] at hb
          rw [if_pos hb, if_pos hb]
        · have hpred : (normalizeSubject b.subject == key) = false := by
            simpa using hkey
          rw [List.find?_cons_of_neg _ (by simp [hpred])]
      · rw [if_neg hb, ih, tableLookup_tableSet]
        by_cases hkey : normalizeSubject b.subject = key
        · have hnone : tableLookup t key = none := by
            rw [← hkey]
            exact Option.not_isSome_iff_eq_none.mp hb
          simp [hkey, hnone, List.find?_cons]
        · have hpred : (normalizeSubject b.subject == key) = false := by
            simpa using hkey
          rw [List.find?_cons_of_neg _ (by simp [hpred])]
          simp [hpred]

/-- Counterexample to C3 as stated: on missing persisted data
(`getItem` returns null) the source returns `[]` before reaching
`rebuildColorAssignments`, so a previously non-empty Color Assignment
Table survives instead of being rebuilt (to empty) from the returned
sequence. -/
theorem loadBlocks_rebuild_counterexample :
    (loadBlocks [("math", "subject-red")] none (fun _ => ParseResult.failure)).1
        = []
    ∧ (loadBlocks [("math", "subject-red")] none (fun _ => ParseResult.failure)).2
        = [("math", "subject-red")]
    ∧ rebuildColorAssignments
        (loadBlocks [("math", "subject-red")] none
          (fun _ => ParseResult.failure)).1 = []
    ∧ ([("math", "subject-red")] : ColorTable) ≠ [] := by decide

/-- C3 as amended: `loadBlocks` never fails — on missing (or falsy
empty-string) persisted data and on unparsable persisted data it
returns the empty sequence, leaving the Color Assignment Table
untouched (the source logs and returns before any rebuild); only when
the persisted data parses is the table rebuilt, from the returned
sequence (the parsed array, or the empty sequence for a non-array
value), the first occurrence of each normalized subject winning with
that block's stored color. -/
theorem loadBlocks_cases (t : ColorTable) (stored : Option String)
    (parseJson : String → ParseResult) :
    (stored = none → loadBlocks t stored parseJson = ([], t))
    ∧ (∀ s, stored = some s → s = "" → loadBlocks t stored parseJson = ([], t))
    ∧ (∀ s, stored = some s → s ≠ "" → parseJson s = .failure →
        loadBlocks t stored parseJson = ([], t))
    ∧ (∀ s bs, stored = some s → s ≠ "" → parseJson s = .arrayVal bs →
        loadBlocks t stored parseJson = (bs, rebuildColorAssignments bs))
    ∧ (∀ s, stored = some s → s ≠ "" → parseJson s = .otherVal →
        loadBlocks t stored parseJson = ([], rebuildColorAssignments []))
    ∧ ∀ bs key, tableLookup (rebuildColorAssignments bs) key
        = (bs.find? (fun b => normalizeSubject b.subject == key)).map
            (fun b => b.color) := by
  refine ⟨?_, ?_, ?_, ?_, ?_, ?_⟩
  · intro h
    rw [h]
    rfl
  · intro s h hs
    rw [h, hs]
    rfl
  · intro s h hs hp
    rw [h]
    unfold loadBlocks
    have hbe : (s == "") = false := by simpa using hs
    simp [hbe, hp]
  · intro s bs h hs hp
    rw [h]
    unfold loadBlocks
    have hbe : (s == "") = false := by simpa using hs
    simp [hbe, hp]
  · intro s h hs hp
    rw [h]
    unfold loadBlocks
    have hbe : (s == "") = false := by simpa using hs
    simp [hbe, hp]
  · intro bs key
    unfold rebuildColorAssignments
    rw [rebuildColorAssignments_go]
    simp [tableLookup]

/-- Fixture: a JSON parse that yields the singleton array holding the
Math block. -/
def pjMathArray : String → ParseResult := fun _ => ParseResult.arrayVal [blockMath]

/-- Witness for C3 as amended: loading a stored string that parses to
`[blockMath]` replaces the table with the rebuilt one, whose only entry
maps the normalized subject to the stored color. -/
theorem loadBlocks_cases_witness :
    loadBlocks [("x", "y")] (some "s") pjMathArray
        = ([blockMath], rebuildColorAssignments [blockMath])
    ∧ rebuildColorAssignments [blockMath] = [("math", "subject-red")]
    ∧ tableLookup (rebuildColorAssignments [blockMath]) "math"
        = ([blockMath].find? (fun b => normalizeSubject b.subject == "math")).map
            (fun b => b.color) := by
  refine ⟨?_, by decide, ?_⟩
  · exact (loadBlocks_cases [("x", "y")] (some "s") pjMathArray).2.2.2.1 "s"
      [blockMath] rfl (by decide) rfl
  · exact (loadBlocks_cases [("x", "y")] (some "s") pjMathArray).2.2.2.2.2
      [blockMath] "math"

/-- The window test of `getSubjectStats`:
`blockStart >= startDate && blockStart <= endDate`, inclusive on both
ends and false under any invalid date. -/
def inStatsWindow (parse : String → Option Int) (startDate endDate : Option Int)
    (b : StudyBlock) : Bool :=
  dge (parse b.start) startDate && dle (parse b.start) endDate

/-- The duration of a block in fractional hours,
`(end - start) / (1000*60*60)`, for blocks with two valid instants. -/
def blockHours (parse : String → Option Int) (b : StudyBlock) : ℚ :=
  match parse b.end_, parse b.start with
  | some e, some s => ((e : ℚ) - (s : ℚ)) / (1000 * 60 * 60)
  | _, _ => 0

/-- The specified per-subject total: the sum of the full (unclipped)
durations of the blocks whose `start` lies in the window and whose raw
subject string equals `subj`. -/
def subjectTotal (parse : String → Option Int) (startDate endDate : Option Int) :
    List StudyBlock → String → ℚ
  | [], _ => 0
  | b :: rest, subj =>
      (if inStatsWindow parse startDate endDate b && b.subject == subj
        then blockHours parse b else 0)
        + subjectTotal parse startDate endDate rest subj

/-- The running total the code reads back for a key: a missing or `NaN`
entry counts as `0`. -/
def statsCurrent (m : StatsMap) (key : String) : ℚ :=
  match statsLookup m key with
  | some (some x) => x
  | _ => 0

theorem statsLookup_statsSet (m : StatsMap) (k : String) (v : Option ℚ)
    (key : String) :
    statsLookup (statsSet m k v) key
      = if k == key then some v else statsLookup m key := by
  induction m with
  | nil => simp [statsSet, statsLookup]
  | cons hd tl ih =>
      obtain ⟨k', v'⟩ := hd
      by_cases hk : k' = k
      · subst hk
        simp only [statsSet, beq_self_eq_true, if_true, statsLookup]
        by_cases hkey : k' = key <;> simp [hkey]
      · simp only [statsSet, statsLookup, beq_iff_eq, if_neg hk, ih]
        by_cases h1 : k' = key
        · by_cases h2 : k = key
          · exact absurd (h1.trans h2.symm) hk
          · simp [h1, h2]
        · by_cases h2 : k = key <;> simp [h1, h2]

theorem subjectTotal_of_not_any (parse : String → Option Int)
    (startDate endDate : Option Int) :
    ∀ (blocks : List StudyBlock) (subj : String),
      blocks.any (fun b => inStatsWindow parse startDate endDate b
        && b.subject == subj) = false →
      subjectTotal parse startDate endDate blocks subj = 0 := by
  intro blocks subj
  induction blocks with
  | nil => intro _; rfl
  | cons b bs ih =>
      intro h
      simp only [List.any_cons, Bool.or_eq_false_iff] at h
      simp [subjectTotal, h.1, ih h.2]

theorem statsCurrent_statsSet (m : StatsMap) (k : String) (v : Option ℚ)
    (key : String) :
    statsCurrent (statsSet m k v) key
      = if k = key then v.getD 0 else statsCurrent m key := by
  unfold statsCurrent
  rw [statsLookup_statsSet]
  by_cases h : k = key
  · rw [if_pos (by simpa using h), if_pos h]
    cases v <;> rfl
  · rw [if_neg (by simpa using h), if_neg h]

/-- Lookup characterization of the `getSubjectStats` fold from an
arbitrary accumulator, for block lists whose timestamps all parse. -/
theorem getSubjectStats_go (parse : String → Option Int)
    (startDate endDate : Option Int) :
    ∀ (blocks : List StudyBlock) (m : StatsMap),
      (∀ b ∈ blocks, (parse b.start).isSome ∧ (parse b.end_).isSome) →
      ∀ subj,
        statsLookup (blocks.foldl (statsStep parse startDate endDate) m) subj
          = if blocks.any (fun b => inStatsWindow parse startDate endDate b
              && b.subject == subj)
            then some (some (statsCurrent m subj
              + subjectTotal parse startDate endDate blocks subj))
            else statsLookup m subj := by
  intro blocks
  induction blocks with
  | nil =>
      intro m _ subj
      simp
  | cons b bs ih =>
      intro m hv subj
      obtain ⟨s0, hs0⟩ := Option.isSome_iff_exists.mp (hv b (by simp)).1
      obtain ⟨e0, he0⟩ := Option.isSome_iff_exists.mp (hv b (by simp)).2
      have hvbs : ∀ x ∈ bs, (parse x.start).isSome ∧ (parse x.end_).isSome :=
        fun x hx => hv x (by simp [hx])
      dsimp only [List.foldl]
      by_cases hw : inStatsWindow parse startDate endDate b = true
      · have hcurEq : (match statsLookup m b.subject with
            | some (some x) => if x == 0 then (0 : ℚ) else x
            | _ => (0 : ℚ)) = statsCurrent m b.subject := by
          unfold statsCurrent
          rcases hm : statsLookup m b.subject with _ | v
          · rfl
          · rcases v with _ | x
            · rfl
            · by_cases hx : x = 0
              · simp [hx]
              · simp [hx]
        have hbh : ((e0 : ℚ) - (s0 : ℚ)) / (1000 * 60 * 60)
            = blockHours parse b := by
          unfold blockHours
          rw [he0, hs0]
        have hstep : statsStep parse startDate endDate m b
            = statsSet m b.subject
                (some (statsCurrent m b.subject + blockHours parse b)) := by
          unfold statsStep
          dsimp only
          rw [show (dge (parse b.start) startDate
                && dle (parse b.start) endDate) = true from hw, if_pos rfl,
            hs0, he0]
          dsimp only [Option.map]
          rw [hcurEq, hbh]
        rw [hstep, ih _ hvbs subj]
        by_cases hsubj : b.subject = subj
        · subst hsubj
          have hlook : statsLookup (statsSet m b.subject
              (some (statsCurrent m b.subject + blockHours parse b))) b.subject
              = some (some (statsCurrent m b.subject + blockHours parse b)) := by
            rw [statsLookup_statsSet]
            simp
          have hcur2 : statsCurrent (statsSet m b.subject
              (some (statsCurrent m b.subject + blockHours parse b))) b.subject
              = statsCurrent m b.subject + blockHours parse b := by
            rw [statsCurrent_statsSet]
            simp
          have hanyc : ((b :: bs).any fun x =>
              inStatsWindow parse startDate endDate x
                && x.subject == b.subject) = true := by
            simp [hw]
          rw [hanyc, if_pos rfl]
          have htot : subjectTotal parse startDate endDate (b :: bs) b.subject
              = blockHours parse b
                + subjectTotal parse startDate endDate bs b.subject := by
            show (if inStatsWindow parse startDate endDate b
                  && b.subject == b.subject then blockHours parse b else 0)
                + subjectTotal parse startDate endDate bs b.subject = _
            rw [if_pos (by simp [hw])]
          rw [htot]
          by_cases hanybs : (bs.any fun x =>
              inStatsWindow parse startDate endDate x
                && x.subject == b.subject) = true
          · rw [if_pos hanybs, hcur2]
            congr 2
            ring
          · rw [if_neg hanybs, hlook,
              subjectTotal_of_not_any parse startDate endDate bs b.subject
                (by simpa using hanybs)]
            congr 2
            ring
        · have hlook2 : statsLookup (statsSet m b.subject
              (some (statsCurrent m b.subject + blockHours parse b))) subj
              = statsLookup m subj := by
            rw [statsLookup_statsSet]
            simp [hsubj]
          have hcur3 : statsCurrent (statsSet m b.subject
              (some (statsCurrent m b.subject + blockHours parse b))) subj
              = statsCurrent m subj := by
            rw [statsCurrent_statsSet]
            simp [hsubj]
          have hanyc : ((b :: bs).any fun x =>
              inStatsWindow parse startDate endDate x && x.subject == subj)
              = (bs.any fun x =>
                inStatsWindow parse startDate endDate x && x.subject == subj) := by
            simp [hsubj]
          have htot : subjectTotal parse startDate endDate (b :: bs) subj
              = subjectTotal parse startDate endDate bs subj := by
            show (if inStatsWindow parse startDate endDate b
                  && b.subject == subj then blockHours parse b else 0)
                + subjectTotal parse startDate endDate bs subj = _
            rw [if_neg (by simp [hsubj]), zero_add]
          rw [hanyc, htot, hcur3, hlook2]
      · have hwf : inStatsWindow parse startDate endDate b = false := by
          simpa using hw
        have hstep0 : statsStep parse startDate endDate m b = m := by
          unfold statsStep
          dsimp only
          rw [show (dge (parse b.start) startDate
                && dle (parse b.start) endDate) = false from hwf]
          simp only [Bool.false_eq_true, if_false]
        have hanyc : ((b :: bs).any fun x =>
            inStatsWindow parse startDate endDate x && x.subject == subj)
            = (bs.any fun x =>
              inStatsWindow parse startDate endDate x && x.subject == subj) := by
          simp [hwf]
        have htot : subjectTotal parse startDate endDate (b :: bs) subj
            = subjectTotal parse startDate endDate bs subj := by
          show (if inStatsWindow parse startDate endDate b
                && b.subject == subj then blockHours parse b else 0)
              + subjectTotal parse startDate endDate bs subj = _
          rw [if_neg (by simp [hwf]), zero_add]
        rw [hstep0, ih _ hvbs subj, hanyc, htot]

/-- C7: for block lists whose timestamps all parse, `getSubjectStats`
maps each raw (non-normalized) subject string to the sum of the full
`(end - start)` durations in fractional hours of exactly the blocks
whose `start` lies in `[startDate, endDate]`, inclusive on both ends;
durations are never clipped to the window, and a block whose `start`
lies outside contributes nothing (its subject is absent from the map
unless another block contributes). -/
theorem getSubjectStats_spec (parse : String → Option Int)
    (blocks : List StudyBlock) (startDate endDate : Option Int)
    (hvalid : ∀ b ∈ blocks, (parse b.start).isSome ∧ (parse b.end_).isSome)
    (subj : String) :
    statsLookup (getSubjectStats parse blocks startDate endDate) subj
      = if blocks.any (fun b => inStatsWindow parse startDate endDate b
          && b.subject == subj)
        then some (some (subjectTotal parse startDate endDate blocks subj))
        else none := by
  unfold getSubjectStats
  rw [getSubjectStats_go parse startDate endDate blocks [] hvalid subj]
  by_cases h : blocks.any (fun b => inStatsWindow parse startDate endDate b
      && b.subject == subj) = true
  · rw [if_pos h, if_pos h]
    have : statsCurrent [] subj = 0 := rfl
    rw [this, zero_add]
  · rw [if_neg h, if_neg h]
    rfl

/-- Witness for C7: a single Physics block of 5400000 ms = 1.5 hours
whose start lies in the window yields the total 3/2 under its raw
subject key. -/
theorem getSubjectStats_spec_witness :
    (∀ b ∈ [blockPhysics], (testParse b.start).isSome ∧ (testParse b.end_).isSome)
    ∧ statsLookup (getSubjectStats testParse [blockPhysics] (some 0) (some 10))
        "Physics"
        = (if [blockPhysics].any (fun b => inStatsWindow testParse (some 0)
              (some 10) b && b.subject == "Physics")
           then some (some (subjectTotal testParse (some 0) (some 10)
              [blockPhysics] "Physics"))
           else none)
    ∧ subjectTotal testParse (some 0) (some 10) [blockPhysics] "Physics"
        = 3 / 2 := by
  refine ⟨by decide,
    getSubjectStats_spec testParse [blockPhysics] (some 0) (some 10)
      (by decide) "Physics", ?_⟩
  simp [subjectTotal, inStatsWindow, blockHours, testParse, parseFromTable,
    blockPhysics, dge, dle]
  norm_num
